import Mathlib

/-!
# Verification of the tenancy connection-lifecycle manager

Shallow embedding of the connection lifecycle manager of the
`nestjs-tenancy` repository (`src/lib/tenancy-core.module.ts`,
`src/lib/factories/tenancy.factory.ts`, `src/lib/tenancy.service.ts`).

Strings manipulated by the JavaScript regular expressions are embedded as
`List Char`; each regex used by the source is translated into a structurally
recursive search function with the same leftmost-match / backtracking
semantics.  The process-wide mutable maps (`baseConnMap`, `connMap`,
`connectionsWithHandlers`, `pendingConnections`, `pendingTenantConnections`)
become fields of explicit state records, and the cooperative (event-loop)
concurrency of `getConnection` is modelled as a step machine whose atomic
steps are the synchronous blocks between `await` suspension points.
-/

namespace Tenancy

/-! ## Association-list helpers (JavaScript `Map` semantics) -/

def lookupAssoc {κ α : Type} [DecidableEq κ] (l : List (κ × α)) (k : κ) : Option α :=
  match l with
  | [] => none
  | (k', v) :: rest => if k' = k then some v else lookupAssoc rest k

def removeAssoc {κ α : Type} [DecidableEq κ] (l : List (κ × α)) (k : κ) : List (κ × α) :=
  l.filter (fun kv => decide (kv.1 ≠ k))

/-- `Map.set`: the stored value for `k` becomes `v` (entry order is irrelevant
for every property proved below, only `lookupAssoc` matters). -/
def setAssoc {κ α : Type} [DecidableEq κ] (l : List (κ × α)) (k : κ) (v : α) : List (κ × α) :=
  (k, v) :: removeAssoc l k

theorem lookupAssoc_cons {κ α : Type} [DecidableEq κ]
    (a : κ) (b : α) (rest : List (κ × α)) (q : κ) :
    lookupAssoc ((a, b) :: rest) q = if a = q then some b else lookupAssoc rest q := rfl

theorem removeAssoc_cons {κ α : Type} [DecidableEq κ]
    (a : κ) (b : α) (rest : List (κ × α)) (k : κ) :
    removeAssoc ((a, b) :: rest) k
      = if a = k then removeAssoc rest k else (a, b) :: removeAssoc rest k := by
  by_cases h : a = k <;> simp [removeAssoc, List.filter_cons, h]

theorem lookupAssoc_removeAssoc_self {κ α : Type} [DecidableEq κ]
    (l : List (κ × α)) (k : κ) : lookupAssoc (removeAssoc l k) k = none := by
  induction l with
  | nil => rfl
  | cons kv rest ih =>
    obtain ⟨a, b⟩ := kv
    rw [removeAssoc_cons]
    by_cases h : a = k
    · rw [if_pos h]
      exact ih
    · rw [if_neg h, lookupAssoc_cons, if_neg h]
      exact ih

theorem lookupAssoc_removeAssoc_ne {κ α : Type} [DecidableEq κ]
    (l : List (κ × α)) (k k' : κ) (h : k' ≠ k) :
    lookupAssoc (removeAssoc l k) k' = lookupAssoc l k' := by
  induction l with
  | nil => rfl
  | cons kv rest ih =>
    obtain ⟨a, b⟩ := kv
    rw [removeAssoc_cons]
    by_cases hk : a = k
    · have hne : a ≠ k' := by rw [hk]; exact Ne.symm h
      rw [if_pos hk, lookupAssoc_cons, if_neg hne]
      exact ih
    · rw [if_neg hk, lookupAssoc_cons, lookupAssoc_cons]
      by_cases hk' : a = k'
      · rw [if_pos hk', if_pos hk']
      · rw [if_neg hk', if_neg hk']
        exact ih

theorem lookupAssoc_setAssoc_self {κ α : Type} [DecidableEq κ]
    (l : List (κ × α)) (k : κ) (v : α) : lookupAssoc (setAssoc l k v) k = some v := by
  simp [setAssoc, lookupAssoc_cons]

theorem lookupAssoc_setAssoc_ne {κ α : Type} [DecidableEq κ]
    (l : List (κ × α)) (k k' : κ) (v : α) (h : k' ≠ k) :
    lookupAssoc (setAssoc l k v) k' = lookupAssoc l k' := by
  have hne : k ≠ k' := Ne.symm h
  rw [setAssoc, lookupAssoc_cons, if_neg hne]
  exact lookupAssoc_removeAssoc_ne l k k' h

/-- JavaScript `haystack.includes(needle)` (substring containment). -/
def includesSub (needle : List Char) : List Char → Bool
  | [] => needle.isPrefixOf []
  | c :: rest => needle.isPrefixOf (c :: rest) || includesSub needle rest

/-! ## URI parsing (`extractBaseUri`, `extractDatabaseName`,
`buildBaseConnectionUri`, host extraction of
`clearTenantConnectionsForCluster`)

Each JavaScript regex is embedded as a recursive function over `List Char`
with the regex engine's leftmost-match semantics: try a match anchored at the
current position, on failure advance one character. -/

/-- `extractBaseUri` (tenancy-core.module.ts, lines 888-901): anchored regex
`^(mongodb(?:\+srv)?:\/\/[^/]+)`; on failure the raw URI is returned. -/
def extractBaseUri (uri : List Char) : List Char :=
  if ("mongodb".toList).isPrefixOf uri then
    let rest := uri.drop 7
    if ("+srv://".toList).isPrefixOf rest then
      let hostPart := (rest.drop 7).takeWhile (fun c => c != '/')
      if hostPart = [] then uri else "mongodb+srv://".toList ++ hostPart
    else if ("://".toList).isPrefixOf rest then
      let hostPart := (rest.drop 3).takeWhile (fun c => c != '/')
      if hostPart = [] then uri else "mongodb://".toList ++ hostPart
    else uri
  else uri

/-- Match of `\/([^/?]+)(\?|$)` anchored at the head of the input: a slash,
then a maximal nonempty run of characters that are neither `/` nor `?`, which
must be followed by `?` or the end of the string.  (No shorter run can
succeed, because the character following a shorter run is itself neither `/`
nor `?`, so the greedy run needs no backtracking.) -/
def dbSegmentAt : List Char → Option (List Char)
  | '/' :: r =>
    let g := r.takeWhile (fun c => c != '/' && c != '?')
    if g = [] then none
    else
      match r.dropWhile (fun c => c != '/' && c != '?') with
      | [] => some g
      | '?' :: _ => some g
      | _ => none
  | _ => none

/-- Leftmost match of `\/([^/?]+)(\?|$)` (the regex of
`extractDatabaseName`). -/
def dbSearch : List Char → Option (List Char)
  | [] => none
  | c :: rest =>
    match dbSegmentAt (c :: rest) with
    | some g => some g
    | none => dbSearch rest

/-- `extractDatabaseName` (tenancy-core.module.ts, lines 913-927): group 1 of
the first match of `\/([^/?]+)(\?|$)`, defaulting to `tenantId` when the
regex does not match. -/
def extractDatabaseName (uri : List Char) (tenantId : List Char) : List Char :=
  (dbSearch uri).getD tenantId

/-- Query-string extraction of `buildBaseConnectionUri` (lines 850-851):
regex `\?(.+)$` — everything from the first `?` that is followed by at least
one character; `''` when there is no such `?`. -/
def queryFrom : List Char → List Char
  | [] => []
  | c :: rest => if c = '?' ∧ rest ≠ [] then c :: rest else queryFrom rest

/-- Match of `([^@]+)@` anchored at the head: at least one non-`@` character
followed by `@`.  Equivalently the first character is not `@` and some `@`
occurs later. -/
def authTailOk : List Char → Bool
  | [] => false
  | c :: rest => c != '@' && rest.contains '@'

def hasAuthAt : List Char → Bool
  | ':' :: '/' :: '/' :: rest => authTailOk rest
  | _ => false

/-- Unanchored search for `:\/\/([^@]+)@` (credential detection of
`buildBaseConnectionUri`, line 863). -/
def hasAuth : List Char → Bool
  | [] => false
  | c :: rest => hasAuthAt (c :: rest) || hasAuth rest

/-- `buildBaseConnectionUri` (tenancy-core.module.ts, lines 844-877).  The
surrounding `try`/`catch` never fires in this pure translation, so the
fallback branch is not represented. -/
def buildBaseConnectionUri (fullUri baseUri : List Char) : List Char :=
  let queryParams := queryFrom fullUri
  let hasAuthSource := includesSub ("authSource=".toList) queryParams
  if hasAuthSource then baseUri ++ queryParams
  else if hasAuth fullUri then baseUri ++ "/admin".toList ++ queryParams
  else baseUri ++ queryParams

/-- The physical dial URI derived from a full tenant URI, exactly as
`createBaseConnection` derives it (line 496 combined with line 383). -/
def physicalDialUri (uri : List Char) : List Char :=
  buildBaseConnectionUri uri (extractBaseUri uri)

/-- Characters strictly after the first `@`, if any (`[^@]*@` can only ever
consume the prefix of the input up to and including its first `@`). -/
def splitAfterFirstAt : List Char → Option (List Char)
  | [] => none
  | '@' :: rest => some rest
  | _ :: rest => splitAfterFirstAt rest

/-- The `[^/]+` host group anchored at the head of `r`: the maximal nonempty
run of non-`/` characters, `none` when that run is empty. -/
def nonEmptyHostRun (r : List Char) : Option (List Char) :=
  let g := r.takeWhile (fun c => c != '/')
  if g = [] then none else some g

/-- Groups of `([^@]*@)?([^/]+)` anchored at the head of `r`: greedily try
the optional credential group first (prefix through the first `@`); if the
host group `[^/]+` is then empty, backtrack to an absent credential group. -/
def hostGroupsOf (r : List Char) : Option (List Char) :=
  match splitAfterFirstAt r with
  | some r2 =>
    match nonEmptyHostRun r2 with
    | some g => some g
    | none => nonEmptyHostRun r
  | none => nonEmptyHostRun r

def hostMatchAt : List Char → Option (List Char)
  | ':' :: '/' :: '/' :: r => hostGroupsOf r
  | _ => none

/-- Unanchored search for `:\/\/([^@]*@)?([^/]+)` — host extraction of
`clearTenantConnectionsForCluster` (line 610), group 2 of the first match. -/
def hostSearch : List Char → Option (List Char)
  | [] => none
  | c :: rest =>
    match hostMatchAt (c :: rest) with
    | some g => some g
    | none => hostSearch rest

theorem nonEmptyHostRun_ne_nil (r : List Char) (g : List Char)
    (h : nonEmptyHostRun r = some g) : g ≠ [] := by
  unfold nonEmptyHostRun at h
  simp only [] at h
  split at h
  · cases h
  · rename_i hne
    cases h
    exact hne

theorem hostGroupsOf_ne_nil (r : List Char) (g : List Char)
    (h : hostGroupsOf r = some g) : g ≠ [] := by
  unfold hostGroupsOf at h
  split at h
  · rename_i r2 hsplit
    split at h
    · rename_i g2 hg2
      cases h
      exact nonEmptyHostRun_ne_nil _ _ hg2
    · exact nonEmptyHostRun_ne_nil _ _ h
  · exact nonEmptyHostRun_ne_nil _ _ h

theorem hostMatchAt_ne_nil (s : List Char) (g : List Char)
    (h : hostMatchAt s = some g) : g ≠ [] := by
  unfold hostMatchAt at h
  split at h
  · exact hostGroupsOf_ne_nil _ _ h
  · cases h

/-- The parsed base host is never the empty string: group 2 of the regex is
`[^/]+`. -/
theorem hostSearch_ne_nil (s : List Char) (g : List Char)
    (h : hostSearch s = some g) : g ≠ [] := by
  induction s with
  | nil => cases h
  | cons c rest ih =>
    unfold hostSearch at h
    rcases hm : hostMatchAt (c :: rest) with _ | g'
    · rw [hm] at h
      exact ih h
    · rw [hm] at h
      cases h
      exact hostMatchAt_ne_nil _ _ hm

/-! ## Connection pool state

`MConnection` models a mongoose `Connection` handle: `readyState` is the
driver state (0 disconnected, 1 connected, 2 connecting, 3 disconnecting,
99 uninitialized), `host` is the resolved host — `none` models an access
that throws or yields `undefined` — and `closeThrows` records whether
`close()` rejects (`createBaseConnection` ignores that rejection, so no
definition below inspects the field). -/

structure MConnection where
  id : Nat
  readyState : Nat
  host : Option (List Char)
  closeThrows : Bool
deriving DecidableEq

/-- The process-wide mutable state of `TenancyCoreModule`:
the per-cluster map `baseConnMap`, the per-tenant map `connMap`, the
`connectionsWithHandlers` set, plus a log of issued `close()` calls, a count
of physical dials started (`createConnection` invocations) and a fresh-id
source for new connection objects. -/
structure PoolState where
  baseConnMap : List (List Char × MConnection)
  connMap : List (String × MConnection)
  handlersAttached : List (List Char)
  closedConns : List Nat
  dialCount : Nat
  nextConnId : Nat
deriving DecidableEq

/-- The unhealthy-entry test of `createTenantConnection`
(tenancy-core.module.ts, lines 388-392). -/
def needsReconnection (c : MConnection) : Bool :=
  c.readyState == 0 || c.readyState == 3 || c.readyState == 99

/-- The per-entry eviction test of `clearTenantConnectionsForCluster`
(lines 615-633): the entry's resolved host must be truthy and either equal
the parsed base host (itself required truthy) or be a substring of the base
URI; an entry whose host access throws (`host = none`) is kept. -/
def shouldEvictEntry (baseHost : Option (List Char)) (baseUri : List Char)
    (conn : MConnection) : Bool :=
  match conn.host with
  | none => false
  | some connHost =>
    (match baseHost with
     | some bh => !(decide (bh = [])) && !(decide (connHost = [])) && decide (connHost = bh)
     | none => false)
    || (!(decide (connHost = [])) && includesSub connHost baseUri)

/-- `clearTenantConnectionsForCluster` (lines 604-649): parse the base host,
collect the keys of matching entries, then delete those keys.  The function
is total — the outer `try`/`catch` (never raises, logs and continues) and
the per-entry `catch` (keep the entry) are represented by totality and by
the `none` branch of `shouldEvictEntry`. -/
def clearTenantConnectionsForCluster (connMap : List (String × MConnection))
    (baseUri : List Char) : List (String × MConnection) :=
  let baseHost := hostSearch baseUri
  let keysToDelete :=
    (connMap.filter (fun tc => shouldEvictEntry baseHost baseUri tc.2)).map Prod.fst
  connMap.filter (fun tc => !(decide (tc.1 ∈ keysToDelete)))

/-- The cleanup block of `createBaseConnection` for `isReconnection = true`
(lines 470-485): close the old connection ignoring failures, evict tenant
connections of this cluster, clear the handlers marker
(`connectionsWithHandlers` is a `Set`, so removal is by value). -/
def reconnectCleanup (s : PoolState) (baseUri : List Char) : PoolState :=
  let s1 :=
    match lookupAssoc s.baseConnMap baseUri with
    | some oldConnection => { s with closedConns := s.closedConns ++ [oldConnection.id] }
    | none => s
  let s2 := { s1 with connMap := clearTenantConnectionsForCluster s1.connMap baseUri }
  { s2 with handlersAttached := s2.handlersAttached.filter (fun k => !(decide (k = baseUri))) }

/-- The fresh connection object returned by `createConnection` before its
`open` event: `readyState = 2` (connecting), host not yet determinable. -/
def freshConn (n : Nat) : MConnection :=
  { id := n, readyState := 2, host := none, closeThrows := false }

/-- The dial block of `createBaseConnection` (lines 487-512): start a new
physical dial, store the new connection in `baseConnMap`, and attach the
event handlers exactly once per key. -/
def dialAndRegister (s : PoolState) (baseUri : List Char) : PoolState :=
  let s1 := { s with
    baseConnMap := setAssoc s.baseConnMap baseUri (freshConn s.nextConnId),
    dialCount := s.dialCount + 1,
    nextConnId := s.nextConnId + 1 }
  if baseUri ∈ s1.handlersAttached then s1
  else { s1 with handlersAttached := baseUri :: s1.handlersAttached }

/-- `createBaseConnection` (lines 462-525) up to its ready/error await. -/
def createBaseConnection (s : PoolState) (baseUri : List Char)
    (isReconnection : Bool) : PoolState :=
  dialAndRegister (if isReconnection then reconnectCleanup s baseUri else s) baseUri

/-- The base-connection section of `createTenantConnection`
(lines 387-419), on the path where no dial is already pending for the key:
a cached healthy entry is returned unchanged, otherwise a (re)creation is
started.  `none` in the second component means the caller awaits the dial
just started. -/
def getBaseConnectionStep (s : PoolState) (baseUri : List Char) :
    PoolState × Option MConnection :=
  match lookupAssoc s.baseConnMap baseUri with
  | some baseConnection =>
    if needsReconnection baseConnection then (createBaseConnection s baseUri true, none)
    else (s, some baseConnection)
  | none => (createBaseConnection s baseUri false, none)

/-- `onApplicationShutdown` (lines 150-159): one `close()` per entry of the
base connection map, all awaited via `Promise.all`; the returned list is the
ids of the connections closed. -/
def onApplicationShutdown (s : PoolState) : List Nat :=
  s.baseConnMap.map (fun kv => kv.2.id)

/-! ## Model definitions and schema binding -/

/-- A `ModelDefinition` `{ name, schema, collection }`; the schema object is
opaque. -/
structure TModelDef where
  name : String
  schema : Nat
  collection : String
deriving DecidableEq

/-- The reconcile block of `getConnection`'s cached branch (lines 313-321):
re-register models only when `Object.keys(connection.models).length <
modelDefMap.size`, binding each definition whose name is not yet among the
connection's models.  `connModels` is the list of model names bound on the
cached connection; binding appends the name. -/
def bindMissing (connModels : List String) (defMap : List TModelDef) : List String :=
  defMap.foldl (fun ms d => if d.name ∈ ms then ms else ms ++ [d.name]) connModels

def reconcileModels (connModels : List String) (defMap : List TModelDef) : List String :=
  if connModels.length < defMap.length then bindMissing connModels defMap
  else connModels

/-- Result of running the model-definition registration provider. -/
structure RegResult where
  modelDefMap : List TModelDef
  connectionMap : List (String × List String)
  bindLog : List (String × String)
deriving DecidableEq

/-- The `useFactory` of the model-definition provider in
`createTenancyProviders` (tenancy.factory.ts, lines 21-37): if the name is
already present the call is a no-op; otherwise the definition is stored and
bound onto every currently cached connection.  `connectionMap` maps tenant
ids to the model names bound on their connections; `bindLog` records the
`connection.model(...)` calls performed. -/
def registerDefinition (d : TModelDef) (defMap : List TModelDef)
    (conns : List (String × List String)) : RegResult :=
  if defMap.any (fun e => e.name == d.name) then ⟨defMap, conns, []⟩
  else
    ⟨defMap ++ [d],
     conns.map (fun tc => (tc.1, tc.2 ++ [d.name])),
     conns.map (fun tc => (tc.1, d.name))⟩

/-! ## Single-flight machine

`getConnection` (lines 303-357) and the pending-dial logic of
`createTenantConnection` (lines 394-419) follow the same shape on the
event loop: between two `await` suspension points a caller atomically
(1) checks the cache, (2) checks the pending map, and (3) if both miss,
starts the creation and records its promise in the pending map; when the
promise settles, every awaiting caller receives the same outcome and the
creator's `finally` removes the pending entry.  The machine below has
exactly those two atomic steps; it models both the
(`connMap`, `pendingTenantConnections`) pair keyed by tenant id and the
(healthy `baseConnMap` entry, `pendingConnections`) pair keyed by base
URI. -/

inductive Outcome
  | ok (connId : Nat)
  | err (msg : String)
deriving DecidableEq

inductive CallerSt
  | ready
  | waiting (pid : Nat)
  | done (o : Outcome)
deriving DecidableEq

structure SFState where
  cache : List (String × Nat)
  pending : List (String × Nat)
  created : List (String × Nat)
  nextPid : Nat
  callers : Nat → CallerSt

def updateCaller (f : Nat → CallerSt) (i : Nat) (v : CallerSt) : Nat → CallerSt :=
  fun j => if j = i then v else f j

/-- The synchronous entry block of a `getConnection` call by caller `i` for
key `k` (lines 303-350): return the cached value, else await an in-flight
promise, else start the creation, record it as pending and await it.
`created` logs each creation actually started. -/
def arriveStep (s : SFState) (i : Nat) (k : String) : SFState :=
  match s.callers i with
  | .ready =>
    match lookupAssoc s.cache k with
    | some c => { s with callers := updateCaller s.callers i (.done (.ok c)) }
    | none =>
      match lookupAssoc s.pending k with
      | some p => { s with callers := updateCaller s.callers i (.waiting p) }
      | none =>
        { s with
          pending := (k, s.nextPid) :: s.pending,
          created := s.created ++ [(k, s.nextPid)],
          callers := updateCaller s.callers i (.waiting s.nextPid),
          nextPid := s.nextPid + 1 }
  | _ => s

def resolveWaiters (f : Nat → CallerSt) (p : Nat) (o : Outcome) : Nat → CallerSt :=
  fun j =>
    match f j with
    | .waiting q => if q = p then .done o else .waiting q
    | st => st

/-- Settlement of the in-flight promise for key `k` (lines 352-356 /
412-417): every caller awaiting it observes the same outcome, the creator's
`finally` removes the pending entry, and on success the creation path has
cached the connection (line 443). -/
def settleStep (s : SFState) (k : String) (o : Outcome) : SFState :=
  match lookupAssoc s.pending k with
  | none => s
  | some p =>
    { s with
      pending := removeAssoc s.pending k,
      cache := match o with
        | .ok c => setAssoc s.cache k c
        | .err _ => s.cache,
      callers := resolveWaiters s.callers p o }

def runArrivals (s : SFState) (is : List Nat) (k : String) : SFState :=
  is.foldl (fun t i => arriveStep t i k) s

/-- Number of creations started for key `k`. -/
def createdCount (s : SFState) (k : String) : Nat :=
  (s.created.filter (fun e => e.1 == k)).length

/-! ## Tenant extraction and the synthetic request -/

/-- The request object reaching `getTenant`: a headers dictionary, the
optional Express `subdomains` array, and whether the object carries
Express's `req.get` method.  The synthetic object built by
`TenancyService.buildRequest` is a plain object, so it has no `get`
method. -/
structure TenancyRequest where
  headers : List (List Char × List Char)
  subdomains : Option (List (List Char))
  hasGet : Bool
deriving DecidableEq

structure TenancyModuleOptions where
  tenantIdentifier : Option (List Char)
  isTenantFromSubdomain : Bool
deriving DecidableEq

inductive ExtractionResult
  | ok (tenantId : List Char)
  | badRequest (msg : String)
  | typeError
deriving DecidableEq

def toLowerChars (cs : List Char) : List Char := cs.map Char.toLower

/-- `TenancyService.buildRequest` (tenancy.service.ts, lines 82-94). -/
def buildRequest (opts : TenancyModuleOptions) (tenantId : List Char) : TenancyRequest :=
  if opts.isTenantFromSubdomain then
    { headers := [("host".toList, tenantId ++ ".tenancy.local".toList)],
      subdomains := some [tenantId],
      hasGet := false }
  else
    { headers := [(toLowerChars (opts.tenantIdentifier.getD []), tenantId)],
      subdomains := none,
      hasGet := false }

/-- JavaScript `String.prototype.split(sep)` for a single-character
separator (always returns a nonempty list; `""` splits to `[""]`). -/
def splitChar (sep : Char) (cs : List Char) : List (List Char) :=
  cs.foldr
    (fun c acc =>
      match acc with
      | [] => [[c]]
      | a :: as => if c = sep then [] :: a :: as else (c :: a) :: as)
    [[]]

def trimChars (cs : List Char) : List Char :=
  ((cs.dropWhile Char.isWhitespace).reverse.dropWhile Char.isWhitespace).reverse

/-- `getSubdomainsForFastify` (tenancy-core.module.ts, lines 963-970). -/
def getSubdomainsForFastify (req : TenancyRequest) : List (List Char) :=
  let host := (lookupAssoc req.headers ("host".toList)).getD []
  let host := (splitChar ':' host).headD []
  let host := trimChars host
  (splitChar '.' host).reverse

/-- `getTenantFromSubdomain` (lines 249-276). -/
def getTenantFromSubdomain (isFastifyAdaptor : Bool) (req : TenancyRequest) :
    ExtractionResult :=
  let tid :=
    if isFastifyAdaptor then
      let subs := getSubdomainsForFastify req
      if subs.length > 0 then subs.getLastD [] else []
    else
      match req.subdomains with
      | some subs => if subs.length > 0 then subs.getLastD [] else []
      | none => []
  if tid = [] then .badRequest "Tenant ID is mandatory" else .ok tid

/-- `getTenantFromRequest` (lines 212-237).  The Fastify branch reads
`req.headers[identifier.toLowerCase()]`; the Express branch calls
`req.get(identifier)`, which on an object without that method throws a
`TypeError` (when present, `req.get` performs Express's case-insensitive
header lookup, headers being stored lowercased). -/
def getTenantFromRequest (isFastifyAdaptor : Bool) (req : TenancyRequest)
    (tenantIdentifier : List Char) : ExtractionResult :=
  if isFastifyAdaptor then
    let tid := (lookupAssoc req.headers (toLowerChars tenantIdentifier)).getD []
    if tid = [] then .badRequest "tenantIdentifier is not supplied" else .ok tid
  else
    if req.hasGet then
      let tid := (lookupAssoc req.headers (toLowerChars tenantIdentifier)).getD []
      if tid = [] then .badRequest "tenantIdentifier is not supplied" else .ok tid
    else .typeError

/-- `getTenant` (lines 172-199); the adapter kind is passed as a flag. -/
def getTenant (req : TenancyRequest) (opts : TenancyModuleOptions)
    (isFastifyAdaptor : Bool) : ExtractionResult :=
  if opts.isTenantFromSubdomain then getTenantFromSubdomain isFastifyAdaptor req
  else
    match opts.tenantIdentifier with
    | none => .badRequest "tenantIdentifier is mandatory"
    | some ident =>
      if ident = [] then .badRequest "tenantIdentifier is mandatory"
      else getTenantFromRequest isFastifyAdaptor req ident

/-! ## Theorems -/

/-- C6: Physical dial URI derivation.  For every full tenant URI and cluster
base URI, `buildBaseConnectionUri` returns `baseUri ++ queryString` unchanged
when the query string already contains an `authSource` parameter;
`baseUri ++ "/admin" ++ queryString` when the URI embeds credentials
(`user:pass@host`) and no `authSource` is present; and
`baseUri ++ queryString` otherwise. -/
theorem c6_physical_dial_uri_derivation (fullUri baseUri : List Char) :
    (includesSub ("authSource=".toList) (queryFrom fullUri) = true →
      buildBaseConnectionUri fullUri baseUri = baseUri ++ queryFrom fullUri) ∧
    (includesSub ("authSource=".toList) (queryFrom fullUri) = false →
      hasAuth fullUri = true →
      buildBaseConnectionUri fullUri baseUri
        = baseUri ++ "/admin".toList ++ queryFrom fullUri) ∧
    (includesSub ("authSource=".toList) (queryFrom fullUri) = false →
      hasAuth fullUri = false →
      buildBaseConnectionUri fullUri baseUri = baseUri ++ queryFrom fullUri) := by
  refine ⟨fun h => ?_, fun h1 h2 => ?_, fun h1 h2 => ?_⟩
  · simp only [buildBaseConnectionUri]
    rw [if_pos h]
  · simp only [buildBaseConnectionUri]
    rw [if_neg (by rw [h1]; exact Bool.false_ne_true), if_pos h2]
  · simp only [buildBaseConnectionUri]
    rw [if_neg (by rw [h1]; exact Bool.false_ne_true),
      if_neg (by rw [h2]; exact Bool.false_ne_true)]

/-- C6 witness: the two concrete examples of the claim, derived through
`c6_physical_dial_uri_derivation`:
`"mongodb://user:pass@h1,h2/tenantA?replicaSet=rs0"` dials
`"mongodb://user:pass@h1,h2/admin?replicaSet=rs0"` and
`"mongodb+srv://cluster.example.com/tenantB?authSource=admin"` dials
`"mongodb+srv://cluster.example.com?authSource=admin"`. -/
theorem c6_physical_dial_uri_derivation_witness :
    physicalDialUri ("mongodb://user:pass@h1,h2/tenantA?replicaSet=rs0".toList)
      = "mongodb://user:pass@h1,h2/admin?replicaSet=rs0".toList ∧
    physicalDialUri ("mongodb+srv://cluster.example.com/tenantB?authSource=admin".toList)
      = "mongodb+srv://cluster.example.com?authSource=admin".toList := by
  constructor
  · rw [physicalDialUri,
      (c6_physical_dial_uri_derivation
        ("mongodb://user:pass@h1,h2/tenantA?replicaSet=rs0".toList)
        (extractBaseUri ("mongodb://user:pass@h1,h2/tenantA?replicaSet=rs0".toList))).2.1
        (by decide) (by decide)]
    decide
  · rw [physicalDialUri,
      (c6_physical_dial_uri_derivation
        ("mongodb+srv://cluster.example.com/tenantB?authSource=admin".toList)
        (extractBaseUri
          ("mongodb+srv://cluster.example.com/tenantB?authSource=admin".toList))).1
        (by decide)]
    decide

/-- C7: database-name extraction, evaluated at the claim's inputs.  The
first conjunct confirms the path-segment case; the remaining conjuncts show
that for URIs with no path segment after the host portion the regex
`\/([^/?]+)(\?|$)` matches the **host** portion itself (the `//` of the
scheme separator is followed by a run of non-`/`, non-`?` characters
reaching the end of the string), so the function returns the host instead of
falling back to the supplied `tenantId` — contradicting the claim and the
function's own documented fallback intent. -/
theorem c7_extract_database_name_behaviour :
    extractDatabaseName ("mongodb://user:pass@h1,h2/tenantA?replicaSet=rs0".toList)
        ("t".toList) = "tenantA".toList ∧
    extractDatabaseName ("mongodb://host:27017".toList) ("t".toList)
      = "host:27017".toList ∧
    extractDatabaseName ("mongodb://user:pass@h1,h2".toList) ("t".toList)
      = "user:pass@h1,h2".toList ∧
    extractDatabaseName ("mongodb://host/".toList) ("t".toList) = "t".toList := by
  decide

/-- C8: shutdown closes exactly the distinct physical connections: one close
per entry of the base connection map, independent of the tenant connection
map, and no tenant logical connection is ever closed (tenant handles are
distinct objects from the pooled physical handles). -/
theorem c8_shutdown_closes_base_connections (s : PoolState)
    (hdisj : ∀ tkv ∈ s.connMap, ∀ bkv ∈ s.baseConnMap, tkv.2.id ≠ bkv.2.id) :
    (onApplicationShutdown s).length = s.baseConnMap.length ∧
    (∀ n, n ∈ onApplicationShutdown s ↔ ∃ kv ∈ s.baseConnMap, kv.2.id = n) ∧
    (∀ cm : List (String × MConnection),
      onApplicationShutdown { s with connMap := cm } = onApplicationShutdown s) ∧
    (∀ tkv ∈ s.connMap, tkv.2.id ∉ onApplicationShutdown s) := by
  refine ⟨by simp [onApplicationShutdown], ?_, fun cm => rfl, ?_⟩
  · intro n
    constructor
    · intro hn
      obtain ⟨kv, hkv, hid⟩ := List.mem_map.mp hn
      exact ⟨kv, hkv, hid⟩
    · rintro ⟨kv, hkv, hid⟩
      exact List.mem_map.mpr ⟨kv, hkv, hid⟩
  · intro tkv htkv hmem
    simp only [onApplicationShutdown, List.mem_map] at hmem
    obtain ⟨bkv, hb, hid⟩ := hmem
    exact hdisj tkv htkv bkv hb hid.symm

/-- C8 witness: 50 tenant connections over 2 clusters produce exactly 2
close calls. -/
theorem c8_shutdown_closes_base_connections_witness :
    (onApplicationShutdown
      { baseConnMap := [("mongodb://h1".toList, ⟨1, 1, some ("h1".toList), false⟩),
                        ("mongodb://h2".toList, ⟨2, 1, some ("h2".toList), false⟩)],
        connMap := (List.range 50).map (fun n => (toString n, ⟨100 + n, 1, none, false⟩)),
        handlersAttached := [],
        closedConns := [],
        dialCount := 0,
        nextConnId := 3 }).length = 2 :=
  (c8_shutdown_closes_base_connections
    { baseConnMap := [("mongodb://h1".toList, ⟨1, 1, some ("h1".toList), false⟩),
                      ("mongodb://h2".toList, ⟨2, 1, some ("h2".toList), false⟩)],
      connMap := (List.range 50).map (fun n => (toString n, ⟨100 + n, 1, none, false⟩)),
      handlersAttached := [],
      closedConns := [],
      dialCount := 0,
      nextConnId := 3 } (by decide)).1

/-- C9: registration idempotence.  Running the model-definition registration
a second time for the same definition is a no-op: the definition map is
unchanged (same entries, hence same size and same stored definition), no
connection's model list changes, and no binding call is performed. -/
theorem c9_registration_idempotent (d : TModelDef) (defMap : List TModelDef)
    (conns : List (String × List String)) :
    registerDefinition d (registerDefinition d defMap conns).modelDefMap
        (registerDefinition d defMap conns).connectionMap
      = ⟨(registerDefinition d defMap conns).modelDefMap,
         (registerDefinition d defMap conns).connectionMap, []⟩ := by
  have hstep : ∀ (m : List TModelDef) (c : List (String × List String)),
      m.any (fun e => e.name == d.name) = true → registerDefinition d m c = ⟨m, c, []⟩ := by
    intro m c h
    simp [registerDefinition, h]
  apply hstep
  by_cases h : defMap.any (fun e => e.name == d.name) = true
  · simp [registerDefinition, h]
  · simp only [Bool.not_eq_true] at h
    simp [registerDefinition, h, List.any_append]

theorem bindMissing_cons (ms : List String) (d : TModelDef) (ds : List TModelDef) :
    bindMissing ms (d :: ds)
      = bindMissing (if d.name ∈ ms then ms else ms ++ [d.name]) ds := rfl

theorem bindMissing_mem_mono (m : String) (ds : List TModelDef) :
    ∀ ms : List String, m ∈ ms → m ∈ bindMissing ms ds := by
  induction ds with
  | nil => intro ms h; exact h
  | cons d ds ih =>
    intro ms h
    rw [bindMissing_cons]
    by_cases hin : d.name ∈ ms
    · rw [if_pos hin]; exact ih ms h
    · rw [if_neg hin]
      exact ih _ (List.mem_append_left _ h)

theorem bindMissing_binds (ds : List TModelDef) :
    ∀ ms : List String, ∀ d ∈ ds, d.name ∈ bindMissing ms ds := by
  induction ds with
  | nil => intro ms d h; cases h
  | cons d0 ds ih =>
    intro ms d hd
    rw [bindMissing_cons]
    rcases List.mem_cons.mp hd with h | h
    · subst h
      apply bindMissing_mem_mono
      by_cases hin : d.name ∈ ms
      · rw [if_pos hin]; exact hin
      · rw [if_neg hin]
        exact List.mem_append_right _ (by simp)
    · exact ih _ d h

theorem bindMissing_nodup (ds : List TModelDef) :
    ∀ ms : List String, ms.Nodup → (bindMissing ms ds).Nodup := by
  induction ds with
  | nil => intro ms h; exact h
  | cons d0 ds ih =>
    intro ms h
    rw [bindMissing_cons]
    by_cases hin : d0.name ∈ ms
    · rw [if_pos hin]; exact ih ms h
    · rw [if_neg hin]
      apply ih
      rw [List.nodup_append]
      refine ⟨h, List.nodup_singleton _, ?_⟩
      intro x hx hx'
      rw [List.mem_singleton] at hx'
      subst hx'
      exact hin hx

theorem registered_already_bound (connModels : List String) (defMap : List TModelDef)
    (hnd : connModels.Nodup) (hkeys : (defMap.map TModelDef.name).Nodup)
    (hsub : ∀ m ∈ connModels, m ∈ defMap.map TModelDef.name)
    (hlen : defMap.length ≤ connModels.length) :
    ∀ d ∈ defMap, d.name ∈ connModels := by
  intro d hd
  have hfin : connModels.toFinset = (defMap.map TModelDef.name).toFinset := by
    apply Finset.eq_of_subset_of_card_le
    · intro x hx
      rw [List.mem_toFinset] at hx ⊢
      exact hsub x hx
    · rw [List.toFinset_card_of_nodup hkeys, List.toFinset_card_of_nodup hnd]
      simpa using hlen
  have hmem : d.name ∈ (defMap.map TModelDef.name).toFinset := by
    rw [List.mem_toFinset, List.mem_map]
    exact ⟨d, hd, rfl⟩
  rw [← hfin, List.mem_toFinset] at hmem
  exact hmem

/-- C3: monotonic schema binding with patch-on-next-access.  For a cached
connection whose bound model names are among the registered names (the
invariant maintained by the module: models are only ever bound from the
definition map), the cached-branch reconciliation of `getConnection` leaves
every registered definition bound on the connection, keeps every
previously bound model, and binds nothing twice. -/
theorem c3_monotonic_schema_binding (connModels : List String) (defMap : List TModelDef)
    (hnd : connModels.Nodup) (hkeys : (defMap.map TModelDef.name).Nodup)
    (hsub : ∀ m ∈ connModels, m ∈ defMap.map TModelDef.name) :
    (∀ d ∈ defMap, d.name ∈ reconcileModels connModels defMap) ∧
    (∀ m ∈ connModels, m ∈ reconcileModels connModels defMap) ∧
    (reconcileModels connModels defMap).Nodup := by
  unfold reconcileModels
  by_cases hlt : connModels.length < defMap.length
  · rw [if_pos hlt]
    exact ⟨bindMissing_binds defMap connModels,
      fun m hm => bindMissing_mem_mono m defMap connModels hm,
      bindMissing_nodup defMap connModels hnd⟩
  · rw [if_neg hlt]
    exact ⟨registered_already_bound connModels defMap hnd hkeys hsub
        (Nat.le_of_not_lt hlt),
      fun m hm => hm, hnd⟩

/-- C3 witness: a connection bound with `A` only, against a registry holding
`A` and a later-registered `B`: the next access binds `B` and keeps `A`. -/
theorem c3_monotonic_schema_binding_witness :
    "B" ∈ reconcileModels ["A"] [⟨"A", 0, "a"⟩, ⟨"B", 1, "b"⟩] ∧
    "A" ∈ reconcileModels ["A"] [⟨"A", 0, "a"⟩, ⟨"B", 1, "b"⟩] := by
  have h := c3_monotonic_schema_binding ["A"] [⟨"A", 0, "a"⟩, ⟨"B", 1, "b"⟩]
    (by decide) (by decide) (by decide)
  exact ⟨h.1 ⟨"B", 1, "b"⟩ (by decide), h.2.1 "A" (by decide)⟩

theorem assoc_nodup_key_inj {κ α : Type} [DecidableEq κ] (l : List (κ × α))
    (h : (l.map Prod.fst).Nodup) {k : κ} {a b : α}
    (ha : (k, a) ∈ l) (hb : (k, b) ∈ l) : a = b := by
  induction l with
  | nil => cases ha
  | cons kv rest ih =>
    rw [List.map_cons, List.nodup_cons] at h
    rcases List.mem_cons.mp ha with ha' | ha' <;>
      rcases List.mem_cons.mp hb with hb' | hb'
    · rw [← ha'] at hb'
      exact (congrArg Prod.snd hb').symm
    · exfalso
      apply h.1
      rw [← ha']
      exact List.mem_map.mpr ⟨(k, b), hb', rfl⟩
    · exfalso
      apply h.1
      rw [← hb']
      exact List.mem_map.mpr ⟨(k, a), ha', rfl⟩
    · exact ih h.2 ha' hb'

/-- C4: best-effort cluster eviction.  With distinct tenant keys,
`clearTenantConnectionsForCluster` keeps exactly the entries the per-entry
rule does not match, and the per-entry rule matches exactly the entries
whose resolved host is nonempty and either equals the host parsed from the
base URI or is contained in the base URI; an entry whose host cannot be
determined (`host = none`) is never evicted.  Totality of the function
embeds the never-throws contract. -/
theorem c4_best_effort_cluster_eviction (connMap : List (String × MConnection))
    (baseUri : List Char) (hkeys : (connMap.map Prod.fst).Nodup) :
    (∀ t conn, (t, conn) ∈ connMap →
      ((t, conn) ∈ clearTenantConnectionsForCluster connMap baseUri ↔
        shouldEvictEntry (hostSearch baseUri) baseUri conn = false)) ∧
    (∀ conn : MConnection,
      shouldEvictEntry (hostSearch baseUri) baseUri conn = true ↔
        ∃ ch, conn.host = some ch ∧ ch ≠ [] ∧
          (hostSearch baseUri = some ch ∨ includesSub ch baseUri = true)) := by
  constructor
  · intro t conn hmem
    unfold clearTenantConnectionsForCluster
    simp only [List.mem_filter, Bool.not_eq_true', decide_eq_false_iff_not]
    constructor
    · rintro ⟨-, hnotdel⟩
      by_contra hev
      rw [Bool.not_eq_false] at hev
      apply hnotdel
      exact List.mem_map.mpr ⟨(t, conn), List.mem_filter.mpr ⟨hmem, hev⟩, rfl⟩
    · intro hev
      refine ⟨hmem, fun hdel => ?_⟩
      obtain ⟨⟨t', conn'⟩, hmem', hfst⟩ := List.mem_map.mp hdel
      obtain ⟨hmem'', hev'⟩ := List.mem_filter.mp hmem'
      dsimp at hfst
      subst hfst
      have : conn' = conn := assoc_nodup_key_inj connMap hkeys hmem'' hmem
      rw [this] at hev'
      rw [hev] at hev'
      cases hev'
  · intro conn
    unfold shouldEvictEntry
    rcases hhost : conn.host with _ | ch
    · simp
    · rcases hbase : hostSearch baseUri with _ | bh
      · simp only [Bool.or_eq_true, Bool.and_eq_true, Bool.not_eq_true',
          decide_eq_false_iff_not]
        constructor
        · rintro (h | ⟨hne, hincl⟩)
          · cases h
          · exact ⟨ch, rfl, hne, Or.inr hincl⟩
        · rintro ⟨ch', hch', hne, h | h⟩
          · cases h
          · cases hch'
            exact Or.inr ⟨hne, h⟩
      · have hbne : bh ≠ [] := hostSearch_ne_nil baseUri bh hbase
        simp only [Bool.or_eq_true, Bool.and_eq_true, Bool.not_eq_true',
          decide_eq_false_iff_not, decide_eq_true_iff]
        constructor
        · rintro (⟨⟨-, hne⟩, heq⟩ | ⟨hne, hincl⟩)
          · exact ⟨ch, rfl, hne, Or.inl (by rw [heq])⟩
          · exact ⟨ch, rfl, hne, Or.inr hincl⟩
        · rintro ⟨ch', hch', hne, h | h⟩
          · injection hch' with hcc
            subst hcc
            injection h with hbh
            exact Or.inl ⟨⟨hbne, hne⟩, hbh.symm⟩
          · injection hch' with hcc
            subst hcc
            exact Or.inr ⟨hne, h⟩

/-- C4 witness: the tenant on host `h1` is evicted for cluster
`"mongodb://u:p@h1"`, the tenant whose host access throws is kept, the
tenant on another host is kept. -/
theorem c4_best_effort_cluster_eviction_witness :
    ("tB", (⟨3, 1, none, false⟩ : MConnection)) ∈
      clearTenantConnectionsForCluster
        [("tA", ⟨2, 1, some ("h1".toList), false⟩),
         ("tB", ⟨3, 1, none, false⟩),
         ("tC", ⟨4, 1, some ("h9".toList), false⟩)]
        ("mongodb://u:p@h1".toList) ∧
    ("tC", (⟨4, 1, some ("h9".toList), false⟩ : MConnection)) ∈
      clearTenantConnectionsForCluster
        [("tA", ⟨2, 1, some ("h1".toList), false⟩),
         ("tB", ⟨3, 1, none, false⟩),
         ("tC", ⟨4, 1, some ("h9".toList), false⟩)]
        ("mongodb://u:p@h1".toList) ∧
    (∃ ch, (some ("h1".toList) : Option (List Char)) = some ch ∧ ch ≠ [] ∧
      (hostSearch ("mongodb://u:p@h1".toList) = some ch ∨
        includesSub ch ("mongodb://u:p@h1".toList) = true)) := by
  have h := c4_best_effort_cluster_eviction
    [("tA", ⟨2, 1, some ("h1".toList), false⟩),
     ("tB", ⟨3, 1, none, false⟩),
     ("tC", ⟨4, 1, some ("h9".toList), false⟩)]
    ("mongodb://u:p@h1".toList) (by decide)
  exact ⟨(h.1 "tB" ⟨3, 1, none, false⟩ (by decide)).mpr (by decide),
    (h.1 "tC" ⟨4, 1, some ("h9".toList), false⟩ (by decide)).mpr (by decide),
    (h.2 ⟨2, 1, some ("h1".toList), false⟩).mp (by decide)⟩

theorem dialAndRegister_dialCount (s : PoolState) (baseUri : List Char) :
    (dialAndRegister s baseUri).dialCount = s.dialCount + 1 := by
  unfold dialAndRegister
  dsimp only
  split <;> rfl

theorem dialAndRegister_lookup_self (s : PoolState) (baseUri : List Char) :
    lookupAssoc (dialAndRegister s baseUri).baseConnMap baseUri
      = some (freshConn s.nextConnId) := by
  unfold dialAndRegister
  dsimp only
  split <;> exact lookupAssoc_setAssoc_self s.baseConnMap baseUri (freshConn s.nextConnId)

theorem reconnectCleanup_eq (s : PoolState) (baseUri : List Char) (c : MConnection)
    (hc : lookupAssoc s.baseConnMap baseUri = some c) :
    reconnectCleanup s baseUri = { s with
      closedConns := s.closedConns ++ [c.id],
      connMap := clearTenantConnectionsForCluster s.connMap baseUri,
      handlersAttached := s.handlersAttached.filter (fun k => !(decide (k = baseUri))) } := by
  unfold reconnectCleanup
  rw [hc]

/-- C2: unhealthy-entry recreation.  A cached base connection with
`readyState` 0, 3 or 99 is unhealthy: the old connection is closed (the
`closeThrows` field is never consulted — close failures are ignored), every
tenant connection matching the cluster is evicted via
`clearTenantConnectionsForCluster`, the handlers-attached marker is cleared,
and a fresh dial proceeds as if the entry were absent, storing a new
connection under the key.  A healthy cached entry is returned with the state
completely unchanged and no dial. -/
theorem c2_unhealthy_entry_recreation (s : PoolState) (baseUri : List Char)
    (c : MConnection) (hc : lookupAssoc s.baseConnMap baseUri = some c) :
    (needsReconnection c = true ↔
      (c.readyState = 0 ∨ c.readyState = 3 ∨ c.readyState = 99)) ∧
    (needsReconnection c = true →
      c.id ∈ (reconnectCleanup s baseUri).closedConns ∧
      (reconnectCleanup s baseUri).connMap
        = clearTenantConnectionsForCluster s.connMap baseUri ∧
      baseUri ∉ (reconnectCleanup s baseUri).handlersAttached ∧
      getBaseConnectionStep s baseUri
        = (dialAndRegister (reconnectCleanup s baseUri) baseUri, none) ∧
      (dialAndRegister (reconnectCleanup s baseUri) baseUri).dialCount
        = s.dialCount + 1 ∧
      lookupAssoc (dialAndRegister (reconnectCleanup s baseUri) baseUri).baseConnMap
          baseUri
        = some (freshConn s.nextConnId)) ∧
    (needsReconnection c = false →
      getBaseConnectionStep s baseUri = (s, some c)) := by
  refine ⟨by simp [needsReconnection]; tauto, fun hunh => ?_, fun hok => ?_⟩
  · have hclean := reconnectCleanup_eq s baseUri c hc
    refine ⟨?_, ?_, ?_, ?_, ?_, ?_⟩
    · rw [hclean]
      simp
    · rw [hclean]
    · rw [hclean]
      intro hmem
      have := (List.mem_filter.mp hmem).2
      simp at this
    · unfold getBaseConnectionStep createBaseConnection
      rw [hc]
      dsimp only
      rw [if_pos hunh, if_pos rfl]
    · rw [dialAndRegister_dialCount, hclean]
    · rw [dialAndRegister_lookup_self, hclean]
  · unfold getBaseConnectionStep
    rw [hc]
    dsimp only
    rw [if_neg (by rw [hok]; exact Bool.false_ne_true)]

/-- C2 witness: a disconnected (`readyState = 0`) cached entry whose
`close()` rejects is closed anyway, matching tenants are evicted, the
handler marker is cleared and a fresh dial replaces the entry; applied to a
concrete two-tenant state. -/
theorem c2_unhealthy_entry_recreation_witness :
    1 ∈ (reconnectCleanup
      { baseConnMap := [("mongodb://u:p@h1".toList, ⟨1, 0, some ("h1".toList), true⟩)],
        connMap := [("tA", ⟨2, 1, some ("h1".toList), false⟩),
                    ("tB", ⟨3, 1, some ("h2".toList), false⟩)],
        handlersAttached := ["mongodb://u:p@h1".toList],
        closedConns := [], dialCount := 0, nextConnId := 10 }
      ("mongodb://u:p@h1".toList)).closedConns ∧
    ("mongodb://u:p@h1".toList) ∉ (reconnectCleanup
      { baseConnMap := [("mongodb://u:p@h1".toList, ⟨1, 0, some ("h1".toList), true⟩)],
        connMap := [("tA", ⟨2, 1, some ("h1".toList), false⟩),
                    ("tB", ⟨3, 1, some ("h2".toList), false⟩)],
        handlersAttached := ["mongodb://u:p@h1".toList],
        closedConns := [], dialCount := 0, nextConnId := 10 }
      ("mongodb://u:p@h1".toList)).handlersAttached ∧
    (dialAndRegister (reconnectCleanup
      { baseConnMap := [("mongodb://u:p@h1".toList, ⟨1, 0, some ("h1".toList), true⟩)],
        connMap := [("tA", ⟨2, 1, some ("h1".toList), false⟩),
                    ("tB", ⟨3, 1, some ("h2".toList), false⟩)],
        handlersAttached := ["mongodb://u:p@h1".toList],
        closedConns := [], dialCount := 0, nextConnId := 10 }
      ("mongodb://u:p@h1".toList)) ("mongodb://u:p@h1".toList)).dialCount = 1 := by
  have h := c2_unhealthy_entry_recreation
    { baseConnMap := [("mongodb://u:p@h1".toList, ⟨1, 0, some ("h1".toList), true⟩)],
      connMap := [("tA", ⟨2, 1, some ("h1".toList), false⟩),
                  ("tB", ⟨3, 1, some ("h2".toList), false⟩)],
      handlersAttached := ["mongodb://u:p@h1".toList],
      closedConns := [], dialCount := 0, nextConnId := 10 }
    ("mongodb://u:p@h1".toList) ⟨1, 0, some ("h1".toList), true⟩ (by decide)
  have h2 := h.2.1 (by decide)
  exact ⟨h2.1, h2.2.2.1, h2.2.2.2.2.1⟩

theorem updateCaller_same (f : Nat → CallerSt) (i : Nat) (v : CallerSt) :
    updateCaller f i v i = v := by
  simp [updateCaller]

theorem updateCaller_other (f : Nat → CallerSt) (i j : Nat) (v : CallerSt)
    (h : j ≠ i) : updateCaller f i v j = f j := by
  simp [updateCaller, h]

theorem arriveStep_joins (s : SFState) (i : Nat) (k : String) (p : Nat)
    (hr : s.callers i = .ready) (hc : lookupAssoc s.cache k = none)
    (hp : lookupAssoc s.pending k = some p) :
    arriveStep s i k = { s with callers := updateCaller s.callers i (.waiting p) } := by
  unfold arriveStep
  rw [hr, hc, hp]

theorem arriveStep_creates (s : SFState) (i : Nat) (k : String)
    (hr : s.callers i = .ready) (hc : lookupAssoc s.cache k = none)
    (hp : lookupAssoc s.pending k = none) :
    arriveStep s i k = { s with
      pending := (k, s.nextPid) :: s.pending,
      created := s.created ++ [(k, s.nextPid)],
      callers := updateCaller s.callers i (.waiting s.nextPid),
      nextPid := s.nextPid + 1 } := by
  unfold arriveStep
  rw [hr, hc, hp]

theorem createdCount_append_self (l : List (String × Nat)) (k : String) (p : Nat) :
    ((l ++ [(k, p)]).filter (fun e => e.1 == k)).length
      = (l.filter (fun e => e.1 == k)).length + 1 := by
  rw [List.filter_append]
  simp

/-- While a promise for `k` is in flight and the cache misses, every further
arrival for `k` merely joins the pending promise: the cache, pending map and
creation log are untouched and each arriving caller ends up waiting on the
same promise. -/
theorem runArrivals_joins (k : String) (p0 : Nat) :
    ∀ (js : List Nat) (s : SFState), js.Nodup →
      (∀ i ∈ js, s.callers i = .ready) →
      lookupAssoc s.cache k = none →
      lookupAssoc s.pending k = some p0 →
      (runArrivals s js k).cache = s.cache ∧
      (runArrivals s js k).pending = s.pending ∧
      (runArrivals s js k).created = s.created ∧
      (∀ i ∈ js, (runArrivals s js k).callers i = .waiting p0) ∧
      (∀ j, j ∉ js → (runArrivals s js k).callers j = s.callers j) := by
  intro js
  induction js with
  | nil =>
    intro s _ _ _ _
    exact ⟨rfl, rfl, rfl, by simp, fun j _ => rfl⟩
  | cons i js ih =>
    intro s hnd hready hcache hpending
    have hstep := arriveStep_joins s i k p0 (hready i (by simp)) hcache hpending
    have hrun : runArrivals s (i :: js) k = runArrivals (arriveStep s i k) js k := rfl
    rw [List.nodup_cons] at hnd
    have hready' : ∀ i' ∈ js, (arriveStep s i k).callers i' = .ready := by
      intro i' hi'
      rw [hstep]
      dsimp only
      rw [updateCaller_other _ _ _ _ (fun hh => hnd.1 (by rw [← hh]; exact hi'))]
      exact hready i' (by simp [hi'])
    have ihh := ih (arriveStep s i k) hnd.2 hready'
      (by rw [hstep]; exact hcache) (by rw [hstep]; exact hpending)
    obtain ⟨hC, hP, hL, hW, hO⟩ := ihh
    rw [hrun]
    refine ⟨by rw [hC, hstep], by rw [hP, hstep], by rw [hL, hstep], ?_, ?_⟩
    · intro i'' hi''
      rcases List.mem_cons.mp hi'' with h | h
      · subst h
        rw [hO i'' hnd.1, hstep]
        exact updateCaller_same s.callers i'' (.waiting p0)
      · exact hW i'' h
    · intro j hj
      rw [List.mem_cons] at hj
      push_neg at hj
      rw [hO j hj.2, hstep]
      exact updateCaller_other _ _ _ _ hj.1

theorem resolveWaiters_waiting (f : Nat → CallerSt) (p : Nat) (o : Outcome)
    (j : Nat) (h : f j = .waiting p) : resolveWaiters f p o j = .done o := by
  simp [resolveWaiters, h]

/-- C1: single-flight deduplication.  From a state where tenant `k` has no
cached connection, no pending creation, and no creation has been started,
`N ≥ 2` interleaved `getConnection` arrivals for `k` start exactly one
creation (`createTenantConnection` executes once), the pending map holds
that single in-flight promise, and when it settles every one of the `N`
callers receives the identical outcome (connection or error) while the
pending entry is removed.  The same machine models the per-cluster
`pendingConnections` single-flight of `createTenantConnection` /
`createBaseConnection`. -/
theorem c1_single_flight (s0 : SFState) (k : String) (i0 i1 : Nat) (is : List Nat)
    (o : Outcome)
    (hnd : (i0 :: i1 :: is).Nodup)
    (hready : ∀ i ∈ (i0 :: i1 :: is), s0.callers i = .ready)
    (hcache : lookupAssoc s0.cache k = none)
    (hpending : lookupAssoc s0.pending k = none)
    (hcreated : createdCount s0 k = 0) :
    createdCount (runArrivals s0 (i0 :: i1 :: is) k) k = 1 ∧
    lookupAssoc (runArrivals s0 (i0 :: i1 :: is) k).pending k = some s0.nextPid ∧
    (∀ i ∈ (i0 :: i1 :: is),
      (settleStep (runArrivals s0 (i0 :: i1 :: is) k) k o).callers i = .done o) ∧
    lookupAssoc (settleStep (runArrivals s0 (i0 :: i1 :: is) k) k o).pending k
      = none := by
  have hstep := arriveStep_creates s0 i0 k (hready i0 (by simp)) hcache hpending
  have hrun : runArrivals s0 (i0 :: i1 :: is) k
      = runArrivals (arriveStep s0 i0 k) (i1 :: is) k := rfl
  rw [List.nodup_cons] at hnd
  have hready' : ∀ i ∈ (i1 :: is), (arriveStep s0 i0 k).callers i = .ready := by
    intro i hi
    rw [hstep]
    dsimp only
    rw [updateCaller_other _ _ _ _ (fun hh => hnd.1 (by rw [← hh]; exact hi))]
    exact hready i (by simp [hi])
  have hjoin := runArrivals_joins k s0.nextPid (i1 :: is) (arriveStep s0 i0 k)
    hnd.2 hready' (by rw [hstep]; exact hcache)
    (by rw [hstep]; dsimp only; rw [lookupAssoc_cons, if_pos rfl])
  obtain ⟨hC, hP, hL, hW, hO⟩ := hjoin
  have hpend1 : lookupAssoc (runArrivals s0 (i0 :: i1 :: is) k).pending k
      = some s0.nextPid := by
    rw [hrun, hP, hstep]
    simp [lookupAssoc_cons]
  have hcall : ∀ i ∈ (i0 :: i1 :: is),
      (runArrivals s0 (i0 :: i1 :: is) k).callers i = .waiting s0.nextPid := by
    intro i hi
    rcases List.mem_cons.mp hi with h | h
    · subst h
      rw [hrun, hO i hnd.1, hstep]
      exact updateCaller_same s0.callers i (.waiting s0.nextPid)
    · rw [hrun]
      exact hW i h
  have hsettle : settleStep (runArrivals s0 (i0 :: i1 :: is) k) k o
      = { runArrivals s0 (i0 :: i1 :: is) k with
          pending := removeAssoc (runArrivals s0 (i0 :: i1 :: is) k).pending k,
          cache := match o with
            | .ok c => setAssoc (runArrivals s0 (i0 :: i1 :: is) k).cache k c
            | .err _ => (runArrivals s0 (i0 :: i1 :: is) k).cache,
          callers := resolveWaiters (runArrivals s0 (i0 :: i1 :: is) k).callers
            s0.nextPid o } := by
    unfold settleStep
    rw [hpend1]
  refine ⟨?_, hpend1, ?_, ?_⟩
  · rw [hrun]
    unfold createdCount
    rw [hL, hstep]
    dsimp only
    rw [createdCount_append_self]
    unfold createdCount at hcreated
    rw [hcreated]
  · intro i hi
    rw [hsettle]
    exact resolveWaiters_waiting _ _ _ _ (hcall i hi)
  · rw [hsettle]
    exact lookupAssoc_removeAssoc_self _ k

/-- C1 witness: two concurrent callers for tenant `"t"` on an empty state:
one creation is started and both callers observe the same successful
outcome. -/
theorem c1_single_flight_witness :
    createdCount (runArrivals ⟨[], [], [], 0, fun _ => .ready⟩ [0, 1] "t") "t" = 1 ∧
    (settleStep (runArrivals ⟨[], [], [], 0, fun _ => .ready⟩ [0, 1] "t") "t"
      (.ok 7)).callers 0 = .done (.ok 7) ∧
    (settleStep (runArrivals ⟨[], [], [], 0, fun _ => .ready⟩ [0, 1] "t") "t"
      (.ok 7)).callers 1 = .done (.ok 7) := by
  have h := c1_single_flight ⟨[], [], [], 0, fun _ => .ready⟩ "t" 0 1 [] (.ok 7)
    (by decide) (fun i _ => rfl) rfl rfl rfl
  exact ⟨h.1, h.2.2.1 0 (by decide), h.2.2.1 1 (by decide)⟩

/-- C5: dial-failure propagation and retry.  When the in-flight promise for
key `k` settles with an error, every caller awaiting it receives the
identical rejection; the pending marker for `k` is removed (as it also is on
success), the failure caches nothing and leaves the pending entries of every
other key untouched; and a subsequent arrival for `k` — finding no cached
value and no pending promise — starts a fresh creation instead of receiving
the stale failure.  The machine models both `pendingConnections` (dials) and
`pendingTenantConnections` (tenant creations). -/
theorem c5_dial_failure_propagation (s : SFState) (k k' : String) (p : Nat)
    (e : String) (m : Nat)
    (hp : lookupAssoc s.pending k = some p)
    (hk' : k' ≠ k) :
    (∀ j, s.callers j = .waiting p →
      (settleStep s k (.err e)).callers j = .done (.err e)) ∧
    lookupAssoc (settleStep s k (.err e)).pending k = none ∧
    (settleStep s k (.err e)).cache = s.cache ∧
    lookupAssoc (settleStep s k (.err e)).pending k' = lookupAssoc s.pending k' ∧
    ((settleStep s k (.err e)).callers m = .ready →
      lookupAssoc s.cache k = none →
      createdCount (arriveStep (settleStep s k (.err e)) m k) k
        = createdCount s k + 1) ∧
    (∀ c : Nat, lookupAssoc (settleStep s k (.ok c)).pending k = none) := by
  have hsettle : settleStep s k (.err e) = { s with
      pending := removeAssoc s.pending k,
      callers := resolveWaiters s.callers p (.err e) } := by
    unfold settleStep
    rw [hp]
  refine ⟨?_, ?_, by rw [hsettle], ?_, ?_, ?_⟩
  · intro j hj
    rw [hsettle]
    exact resolveWaiters_waiting _ _ _ _ hj
  · rw [hsettle]
    exact lookupAssoc_removeAssoc_self _ k
  · rw [hsettle]
    exact lookupAssoc_removeAssoc_ne s.pending k k' hk'
  · intro hm hcache
    have hstep := arriveStep_creates (settleStep s k (.err e)) m k hm
      (by rw [hsettle]; exact hcache)
      (by rw [hsettle]; exact lookupAssoc_removeAssoc_self _ k)
    rw [hstep]
    unfold createdCount
    rw [hsettle]
    dsimp only
    exact createdCount_append_self s.created k _
  · intro c
    have hsuc : settleStep s k (.ok c) = { s with
        pending := removeAssoc s.pending k,
        cache := setAssoc s.cache k c,
        callers := resolveWaiters s.callers p (.ok c) } := by
      unfold settleStep
      rw [hp]
    rw [hsuc]
    exact lookupAssoc_removeAssoc_self _ k

/-- C5 witness: two callers awaiting the dial for `"k"` both receive the
identical error, the pending marker is gone, the unrelated key `"other"`
keeps its pending entry and the cache is untouched, and a fresh caller then
starts a second creation. -/
theorem c5_dial_failure_propagation_witness :
    (settleStep ⟨[("other", 9)], [("k", 5), ("other", 7)], [("k", 5)], 8,
        fun j => if j < 2 then .waiting 5 else .ready⟩ "k" (.err "dial failed")).callers 0
      = .done (.err "dial failed") ∧
    (settleStep ⟨[("other", 9)], [("k", 5), ("other", 7)], [("k", 5)], 8,
        fun j => if j < 2 then .waiting 5 else .ready⟩ "k" (.err "dial failed")).callers 1
      = .done (.err "dial failed") ∧
    lookupAssoc (settleStep ⟨[("other", 9)], [("k", 5), ("other", 7)], [("k", 5)], 8,
        fun j => if j < 2 then .waiting 5 else .ready⟩ "k" (.err "dial failed")).pending
        "other" = some 7 ∧
    createdCount (arriveStep (settleStep ⟨[("other", 9)], [("k", 5), ("other", 7)],
        [("k", 5)], 8, fun j => if j < 2 then .waiting 5 else .ready⟩ "k"
        (.err "dial failed")) 3 "k") "k" = 2 := by
  have h := c5_dial_failure_propagation
    ⟨[("other", 9)], [("k", 5), ("other", 7)], [("k", 5)], 8,
      fun j => if j < 2 then .waiting 5 else .ready⟩ "k" "other" 5 "dial failed" 3
    (by decide) (by decide)
  refine ⟨h.1 0 (by decide), h.1 1 (by decide), ?_, ?_⟩
  · rw [h.2.2.2.1]
    decide
  · rw [h.2.2.2.2.1 (by decide) (by decide)]
    decide

/-- C10: tenant-id round-trip through the synthetic request built by
`TenancyService.buildRequest`, evaluated on the concrete tenant id `"t1"`
with header identifier `"X-TenantId"`.  Subdomain mode round-trips on both
adapters and header mode round-trips on Fastify, but in header mode on
Express (`isFastifyAdaptor = false`) the extraction calls
`req.get(...)` on a plain object that has no `get` method, so it throws a
`TypeError` instead of returning `"t1"`. -/
theorem c10_round_trip_behaviour :
    getTenant (buildRequest ⟨some ("X-TenantId".toList), false⟩ ("t1".toList))
        ⟨some ("X-TenantId".toList), false⟩ false = .typeError ∧
    getTenant (buildRequest ⟨some ("X-TenantId".toList), false⟩ ("t1".toList))
        ⟨some ("X-TenantId".toList), false⟩ true = .ok ("t1".toList) ∧
    getTenant (buildRequest ⟨none, true⟩ ("t1".toList)) ⟨none, true⟩ false
      = .ok ("t1".toList) ∧
    getTenant (buildRequest ⟨none, true⟩ ("t1".toList)) ⟨none, true⟩ true
      = .ok ("t1".toList) := by
  decide

end Tenancy
